import Mathlib

/-!
Verification of the application-tracking store layer of
`mvcr-application-checker` (`src/bot/database.py`), shallowly embedded in
Lean 4.

Modelling conventions:

* The source issues SQL against two schema variants of the `Applications`
  table (a normalized form addressed through
  `user_id = (SELECT user_id FROM Users WHERE chat_id = $1)`, and a flat
  form addressed through direct `chat_id` / `language` columns, as in
  `update_timestamp`, `set_user_language`, `get_user_language`,
  `check_subscription_in_db` and the column list of
  `get_applications_needing_update`).  The embedding keeps one row type
  `AppRow` carrying every column any query references, and each operation
  reads or writes exactly the columns its own SQL names.
* Timestamps are epoch seconds as `Int`; the SQL
  `TIMESTAMP '1970-01-01'` is `0`, `CURRENT_TIMESTAMP` is an explicit
  `now` argument.
* Each operation that wraps `conn.execute` in `try/except Exception`
  takes a `fault : Bool` flag modelling a store-internal failure of the
  underlying call (connection loss etc.); on `fault = true` the operation
  performs no write and returns its safe fallback value, exactly as the
  `except` branch does.
* The `UNIQUE` constraints raising `asyncpg.UniqueViolationError` and the
  column defaults of inserted rows are not under `src/`; they are
  modelled from the spec (section 3): `chat_id` unique on `Users`,
  `(user_id, application_number, application_suffix, application_type,
  application_year)` unique on `Applications`, defaults
  `current_status = "Unknown"`, `is_resolved = false`,
  `last_updated = NULL`.
-/

/-- A row of the `Users` table: `chat_id` (unique), `username`,
`first_name`, `last_name`, `language`, plus the serial `user_id` key. -/
structure UserRow where
  user_id : Int
  chat_id : Int
  username : Option String
  first_name : String
  last_name : Option String
  language : String
deriving DecidableEq, Repr

/-- A row of the `Applications` table.  Carries both the normalized
`user_id` foreign key and the flat-variant `chat_id` / `language`
columns (see the module comment). -/
structure AppRow where
  user_id : Int
  chat_id : Int
  application_number : String
  application_suffix : String
  application_type : String
  application_year : Int
  current_status : String
  is_resolved : Bool
  last_updated : Option Int
  language : String
deriving DecidableEq, Repr

/-- The store: the `Users` and `Applications` tables, in row order. -/
structure DBState where
  users : List UserRow
  apps : List AppRow
deriving DecidableEq, Repr

/-- The scalar subquery `(SELECT user_id FROM Users WHERE chat_id = $1)`:
the `user_id` of the first matching user, `NULL` when none matches. -/
def lookupUserId (s : DBState) (chat_id : Int) : Option Int :=
  (s.users.find? (fun u => u.chat_id = chat_id)).map (fun u => u.user_id)

/-- `add_user_to_db`: `INSERT INTO Users (chat_id, username, first_name,
last_name, language) VALUES ($1,$2,$3,$4,$5)`.  A duplicate `chat_id`
raises `UniqueViolationError`, caught and turned into `False`; any other
store failure (`fault`) also returns `False`; on success the row is
appended and `True` returned.  The serial `user_id` is modelled as the
current table size. -/
def add_user_to_db (fault : Bool) (s : DBState) (chat_id : Int)
    (first_name : String) (username : Option String := none)
    (last_name : Option String := none) (lang : String := "EN") :
    Bool × DBState :=
  if fault then (false, s)
  else if s.users.any (fun u => u.chat_id = chat_id) then (false, s)
  else (true,
    { s with users := s.users ++
        [{ user_id := Int.ofNat s.users.length, chat_id := chat_id,
           username := username, first_name := first_name,
           last_name := last_name, language := lang }] })

/-- `add_application_to_db`: `INSERT INTO Applications (user_id,
application_number, application_suffix, application_type,
application_year) SELECT user_id, $2, $3, $4, $5 FROM Users WHERE
chat_id = $1`.  When no user matches, the `SELECT` yields zero rows, the
`INSERT` inserts nothing and no exception is raised, so the function
returns `True`.  A duplicate identity tuple raises
`UniqueViolationError`, caught into `False`; any other failure (`fault`)
returns `False`.  Inserted rows take the spec's column defaults; the
flat-variant `chat_id` / `language` columns of the new row are populated
from the owning user. -/
def add_application_to_db (fault : Bool) (s : DBState) (chat_id : Int)
    (application_number application_suffix application_type : String)
    (application_year : Int) : Bool × DBState :=
  if fault then (false, s)
  else
    match (s.users.find? (fun u => u.chat_id = chat_id)) with
    | none => (true, s)
    | some u =>
      if s.apps.any (fun a =>
          a.user_id = u.user_id ∧ a.application_number = application_number ∧
          a.application_suffix = application_suffix ∧
          a.application_type = application_type ∧
          a.application_year = application_year) then
        (false, s)
      else
        (true,
          { s with apps := s.apps ++
              [{ user_id := u.user_id, chat_id := u.chat_id,
                 application_number := application_number,
                 application_suffix := application_suffix,
                 application_type := application_type,
                 application_year := application_year,
                 current_status := "Unknown", is_resolved := false,
                 last_updated := none, language := u.language }] })

/-- `update_db_status`: `UPDATE Applications SET current_status = $1,
last_updated = CURRENT_TIMESTAMP, is_resolved = $2 WHERE user_id =
(SELECT user_id FROM Users WHERE chat_id = $3) AND application_number =
$4`.  Matching is by the user's `user_id` and `application_number` only.
Returns `True` whenever the execute raises nothing (also when zero rows
match); on any exception (`fault`) returns `False`. -/
def update_db_status (fault : Bool) (s : DBState) (chat_id : Int)
    (application_number current_status : String) (is_resolved : Bool)
    (now : Int) : Bool × DBState :=
  if fault then (false, s)
  else
    (true,
      { s with apps := s.apps.map (fun a =>
          if lookupUserId s chat_id = some a.user_id ∧
             a.application_number = application_number then
            { a with current_status := current_status,
                     last_updated := some now,
                     is_resolved := is_resolved }
          else a) })

/-- `remove_from_db`: `DELETE FROM Applications WHERE user_id = (SELECT
user_id FROM Users WHERE chat_id = $1) AND application_number = $2`.
Returns `True` on a clean execute, `False` on any exception. -/
def remove_from_db (fault : Bool) (s : DBState) (chat_id : Int)
    (application_number : String) : Bool × DBState :=
  if fault then (false, s)
  else
    (true,
      { s with apps := s.apps.filter (fun a =>
          ¬(lookupUserId s chat_id = some a.user_id ∧
            a.application_number = application_number)) })

/-- `get_application_status`: `SELECT current_status FROM Applications
WHERE user_id = (SELECT user_id FROM Users WHERE chat_id = $1) AND
application_number = $2`, via `fetchval` (first row's first column, or
`None`); any exception yields `None`. -/
def get_application_status (fault : Bool) (s : DBState) (chat_id : Int)
    (application_number : String) : Option String :=
  if fault then none
  else
    (s.apps.find? (fun a =>
        lookupUserId s chat_id = some a.user_id ∧
        a.application_number = application_number)).map
      (fun a => a.current_status)

/-- The column list of `get_applications_needing_update`:
`SELECT chat_id, application_number, application_suffix,
application_type, application_year, last_updated`. -/
structure DueRow where
  chat_id : Int
  application_number : String
  application_suffix : String
  application_type : String
  application_year : Int
  last_updated : Option Int
deriving DecidableEq, Repr

/-- Projection of an `Applications` row to the selected columns. -/
def projectDue (a : AppRow) : DueRow :=
  { chat_id := a.chat_id, application_number := a.application_number,
    application_suffix := a.application_suffix,
    application_type := a.application_type,
    application_year := a.application_year,
    last_updated := a.last_updated }

/-- The `WHERE` clause of `get_applications_needing_update`:
`EXTRACT(EPOCH FROM (CURRENT_TIMESTAMP - COALESCE(last_updated,
TIMESTAMP '1970-01-01'))) > $1 AND is_resolved = FALSE`. -/
def needsUpdate (now period : Int) (a : AppRow) : Bool :=
  (now - (a.last_updated.getD 0) > period) ∧ a.is_resolved = false

/-- The rows selected by the query of `get_applications_needing_update`
(before column projection): the unresolved applications whose age since
`COALESCE(last_updated, epoch)` strictly exceeds the period. -/
def dueApplications (s : DBState) (now period : Int) : List AppRow :=
  s.apps.filter (needsUpdate now period)

/-- `get_applications_needing_update`: fetches the projected rows
satisfying `needsUpdate`; on any exception returns `[]`. -/
def get_applications_needing_update (fault : Bool) (s : DBState)
    (now period : Int) : List DueRow :=
  if fault then []
  else (dueApplications s now period).map projectDue

/-- `update_timestamp`: `UPDATE Applications SET last_updated =
CURRENT_TIMESTAMP WHERE chat_id = $1` (flat-variant match on the
`chat_id` column).  Returns nothing; exceptions are swallowed, leaving
the store untouched. -/
def update_timestamp (fault : Bool) (s : DBState) (chat_id : Int)
    (now : Int) : DBState :=
  if fault then s
  else
    { s with apps := s.apps.map (fun a =>
        if a.chat_id = chat_id then { a with last_updated := some now }
        else a) }

/-- `set_user_language`: `UPDATE Applications SET language = $1 WHERE
chat_id = $2` (flat variant).  Returns `True` on a clean execute (also
when zero rows match), `False` on any exception. -/
def set_user_language (fault : Bool) (s : DBState) (chat_id : Int)
    (lang : String) : Bool × DBState :=
  if fault then (false, s)
  else
    (true,
      { s with apps := s.apps.map (fun a =>
          if a.chat_id = chat_id then { a with language := lang }
          else a) })

/-- `MAX_RETRIES = 5`, the maximum number of connection retries. -/
def MAX_RETRIES : Nat := 5

/-- `RETRY_DELAY = 2`, the initial delay in seconds between retries. -/
def RETRY_DELAY : Nat := 2

/-- The retry loop of `connect`: `for attempt in range(1, max_retries+1)`
tries `create_pool`; on success it breaks, on failure it sleeps `delay`
and doubles it if `attempt < max_retries`, and re-raises otherwise.
`fails i = true` means the `i`-th `create_pool` call raises.  Result:
the successful attempt number (`none` models the final re-raise), paired
with the list of delays slept, in order. -/
def connectGo (fails : Nat → Bool) (max_retries attempt delay : Nat) :
    Option Nat × List Nat :=
  if fails attempt then
    if h : attempt < max_retries then
      let r := connectGo fails max_retries (attempt + 1) (delay * 2)
      (r.1, delay :: r.2)
    else (none, [])
  else (some attempt, [])
termination_by max_retries - attempt
decreasing_by omega

/-- `connect(max_retries, delay)`: runs the retry loop from attempt 1. -/
def connect (fails : Nat → Bool) (max_retries : Nat := MAX_RETRIES)
    (delay : Nat := RETRY_DELAY) : Option Nat × List Nat :=
  connectGo fails max_retries 1 delay

/-- The two store mutations the dispatcher path performs on application
rows: a status update (`update_db_status`) or a timestamp refresh
(`update_timestamp`). -/
inductive DbOp where
  | updStatus (chat_id : Int)
      (application_number current_status : String) (is_resolved : Bool)
  | updTimestamp (chat_id : Int)
deriving DecidableEq, Repr

/-- Apply one fault-free operation at wall-clock time `now`. -/
def applyOp (s : DBState) (op : DbOp) (now : Int) : DBState :=
  match op with
  | .updStatus c n st r => (update_db_status false s c n st r now).2
  | .updTimestamp c => update_timestamp false s c now

/-- Apply a timed sequence of operations, oldest first. -/
def runOps (s : DBState) (l : List (DbOp × Int)) : DBState :=
  l.foldl (fun t p => applyOp t p.1 p.2) s

/-- Order on nullable timestamps: `NULL` precedes every value
(a never-checked application can only move forward). -/
def optLe : Option Int → Option Int → Bool
  | none, _ => true
  | some _, none => false
  | some x, some y => x ≤ y

/-- Row-by-row comparison of `last_updated` between two positionally
corresponding lists of application rows. -/
def lastUpdatedLe (xs ys : List AppRow) : Bool :=
  xs.length = ys.length &&
  (xs.zip ys).all (fun p => optLe p.1.last_updated p.2.last_updated)

/-- Every application row's `last_updated` is at most `t` (rows whose
recorded times do not lie in the future of `t`). -/
def stampedBefore (xs : List AppRow) (t : Int) : Bool :=
  xs.all (fun a => optLe a.last_updated (some t))

/-- The decimal digit character of `n % 10`. -/
def dig (n : Nat) : Char := Char.ofNat (48 + n % 10)

/-- Zero-padded two-digit decimal rendering (`%02d` for `n < 100`). -/
def pad2 (n : Nat) : String := String.mk [dig (n / 10), dig n]

/-- Zero-padded four-digit decimal rendering (`%04d`-style year,
faithful to `%Y` for `n < 10000`). -/
def pad4 (n : Nat) : String :=
  String.mk [dig (n / 1000), dig (n / 100), dig (n / 10), dig n]

/-- Civil date from a day count since 0000-03-01 (the standard
era/year-of-era/day-of-year decomposition of the proleptic Gregorian
calendar, as used by Python's datetime): returns `(year, month, day)`. -/
def civilFromDays (z : Nat) : Nat × Nat × Nat :=
  let era := z / 146097
  let doe := z % 146097
  let yoe := (doe - doe / 1460 + doe / 36524 - doe / 146096) / 365
  let doy := doe - (365 * yoe + yoe / 4 - yoe / 100)
  let mp := (5 * doy + 2) / 153
  let d := doy - (153 * mp + 2) / 5 + 1
  let m := if mp < 10 then mp + 3 else mp - 9
  let y := yoe + era * 400 + (if m ≤ 2 then 1 else 0)
  (y, m, d)

/-- `strftime("%H:%M:%S %d-%m-%Y")` of an epoch-seconds instant (valid
for instants at or after 0000-03-01). -/
def formatTimestamp (t : Int) : String :=
  let z := (t.ediv 86400 + 719468).toNat
  let secs := (t.emod 86400).toNat
  let c := civilFromDays z
  pad2 (secs / 3600) ++ ":" ++ pad2 (secs % 3600 / 60) ++ ":" ++
    pad2 (secs % 60) ++ " " ++ pad2 c.2.2 ++ "-" ++ pad2 c.2.1 ++ "-" ++
    pad4 c.1

/-- The shape `HH:MM:SS DD-MM-YYYY`: 19 characters, decimal digits at
the component positions, and the separators at positions 2, 5, 8, 11,
14. -/
def matchesHMSDMY (x : String) : Bool :=
  let cs := x.toList
  cs.length = 19 &&
  ([0, 1, 3, 4, 6, 7, 9, 10, 12, 13, 15, 16, 17, 18].all
    (fun i => (cs.getD i ' ').isDigit)) &&
  cs.getD 2 ' ' = ':' && cs.getD 5 ' ' = ':' && cs.getD 8 ' ' = ' ' &&
  cs.getD 11 ' ' = '-' && cs.getD 14 ' ' = '-'

/-- `get_application_status_timestamp`: fetches `current_status,
last_updated` for the first row matching the user and
`application_number`; when found with a non-null timestamp, interprets
it as UTC, converts it with `astimezone(pytz.timezone("Europe/Prague"))`
and renders `strftime("%H:%M:%S %d-%m-%Y")`, then returns the
localization entry `current_status_timestamp` for `lang` formatted with
the status and the timestamp; otherwise the `current_status_empty`
entry; on any exception the `error_generic` entry.

Modelled from the spec: `bot.texts.message_texts` is not under `src/`,
so the localization table is the spec's abstract lookup
`text(lang, key, args) -> string`, passed as `textLookup`; the timezone
database behind `pytz` is likewise external, so `astimezone` is the
abstract `astz (zone name) (utc epoch) -> local epoch`, applied to the
fixed zone name `"Europe/Prague"` exactly as the source does. -/
def get_application_status_timestamp
    (textLookup : String → String → List String → String)
    (astz : String → Int → Int) (fault : Bool) (s : DBState)
    (chat_id : Int) (application_number : String)
    (lang : String := "EN") : String :=
  if fault then textLookup lang "error_generic" []
  else
    match s.apps.find? (fun a =>
        lookupUserId s chat_id = some a.user_id ∧
        a.application_number = application_number) with
    | some a =>
      match a.last_updated with
      | some t =>
        textLookup lang "current_status_timestamp"
          [a.current_status, formatTimestamp (astz "Europe/Prague" t)]
      | none => textLookup lang "current_status_empty" []
    | none => textLookup lang "current_status_empty" []

/-- A concrete user for witnesses: chat 100, `user_id` 1. -/
def sampleUser : UserRow :=
  { user_id := 1, chat_id := 100, username := none, first_name := "A",
    last_name := none, language := "EN" }

/-- A concrete application of `sampleUser`: number "123", suffix "XX",
type "DP", year 2023, never checked. -/
def sampleApp : AppRow :=
  { user_id := 1, chat_id := 100, application_number := "123",
    application_suffix := "XX", application_type := "DP",
    application_year := 2023, current_status := "Unknown",
    is_resolved := false, last_updated := none, language := "EN" }

/-- `sampleApp` after a successful check: status "Pending", checked at
UTC epoch 1700000000 (2023-11-14 22:13:20 UTC). -/
def pendingApp : AppRow :=
  { sampleApp with current_status := "Pending",
                   last_updated := some 1700000000 }

/-- Claim C1: `get_applications_needing_update` returns exactly the
applications satisfying `is_resolved = false AND (now -
coalesce(last_updated, epoch)) > period`: a stored row is selected iff
it is unresolved and its age since `last_updated` (`NULL` counted from
epoch 0) strictly exceeds the period, and the returned sequence is the
column projection of exactly those rows; resolved applications are never
selected. -/
theorem c1_due_selection (s : DBState) (now period : Int) :
    (∀ a : AppRow, a ∈ dueApplications s now period ↔
        a ∈ s.apps ∧ a.is_resolved = false ∧
          now - (a.last_updated.getD 0) > period) ∧
    get_applications_needing_update false s now period =
      (dueApplications s now period).map projectDue := by
  refine ⟨fun a => ?_, rfl⟩
  simp only [dueApplications, List.mem_filter, needsUpdate,
    decide_eq_true_eq]
  tauto

/-- Claim C2 fails on the code: with `now = 1000`, `period = 100`,
`ε = 50`, an unresolved application last updated `period - ε = 50`
seconds ago (at 950) is NOT selected, and one last updated
`period + ε = 150` seconds ago (at 850) IS selected — the reverse of
the claim's middle two cases. -/
theorem c2_counterexample :
    ({ sampleApp with last_updated := some 950 } ∉
      dueApplications
        { users := [sampleUser],
          apps := [{ sampleApp with last_updated := some 950 }] }
        1000 100) ∧
    ({ sampleApp with last_updated := some 850 } ∈
      dueApplications
        { users := [sampleUser],
          apps := [{ sampleApp with last_updated := some 850 }] }
        1000 100) := by
  constructor
  · decide
  · decide

/-- Claim C2 (amended): for `getApplicationsDueForRefresh(period)`, an
unresolved application with `last_updated = null` is due whenever
`now > period` seconds past epoch (in practice always); one updated
`period - ε` ago (`0 < ε < period`) is NOT due; one updated
`period + ε` ago (`ε > 0`) IS due; one with `is_resolved = true` is
never due regardless of timestamp. -/
theorem c2_due_boundaries (s : DBState) (a : AppRow)
    (now period ε : Int) (ha : a ∈ s.apps) :
    (a.is_resolved = false → a.last_updated = none → period < now →
      a ∈ dueApplications s now period) ∧
    (0 < ε → ε < period →
      a.last_updated = some (now - (period - ε)) →
      a ∉ dueApplications s now period) ∧
    (0 < ε → a.is_resolved = false →
      a.last_updated = some (now - (period + ε)) →
      a ∈ dueApplications s now period) ∧
    (a.is_resolved = true → a ∉ dueApplications s now period) := by
  simp only [dueApplications, List.mem_filter, needsUpdate,
    decide_eq_true_eq]
  refine ⟨?_, ?_, ?_, ?_⟩
  · intro hres hnull hlt
    exact ⟨ha, by simp [hnull, hres]; omega⟩
  · intro hε hεp hlu hmem
    rcases hmem with ⟨-, hpred⟩
    rw [hlu] at hpred
    simp only [Option.getD_some] at hpred
    omega
  · intro hε hres hlu
    exact ⟨ha, by rw [hlu]; simp [hres]; omega⟩
  · intro hres hmem
    rcases hmem with ⟨-, -, hfalse⟩
    rw [hres] at hfalse
    exact absurd hfalse (by simp)

/-- Witness for C2 (amended) at `now = 1000`, `period = 100`,
`ε = 50`: the never-checked application is due, the one updated 50
seconds ago is not, the one updated 150 seconds ago is, and the
resolved one is not. -/
theorem c2_due_boundaries_witness :
    (sampleApp ∈
      dueApplications { users := [sampleUser], apps := [sampleApp] }
        1000 100) ∧
    ({ sampleApp with last_updated := some 950 } ∉
      dueApplications
        { users := [sampleUser],
          apps := [{ sampleApp with last_updated := some 950 }] }
        1000 100) ∧
    ({ sampleApp with last_updated := some 850 } ∈
      dueApplications
        { users := [sampleUser],
          apps := [{ sampleApp with last_updated := some 850 }] }
        1000 100) ∧
    ({ sampleApp with is_resolved := true } ∉
      dueApplications
        { users := [sampleUser],
          apps := [{ sampleApp with is_resolved := true }] }
        1000 100) := by
  refine ⟨?_, ?_, ?_, ?_⟩
  · exact (c2_due_boundaries _ sampleApp 1000 100 50
      (by decide)).1 rfl rfl (by decide)
  · exact (c2_due_boundaries _ { sampleApp with last_updated := some 950 }
      1000 100 50 (by decide)).2.1 (by decide) (by decide) rfl
  · exact (c2_due_boundaries _ { sampleApp with last_updated := some 850 }
      1000 100 50 (by decide)).2.2.1 (by decide) rfl rfl
  · exact (c2_due_boundaries _ { sampleApp with is_resolved := true }
      1000 100 50 (by decide)).2.2.2 rfl

/-- Claim C3 fails on the code: with a user (chat 100) and its
application ("123","XX","DP",2023) already stored, re-inserting the same
application returns the same caller-visible value as a store-internal
write failure (`false` in both cases), and likewise for re-inserting the
user — the duplicate case is not reported as a distinct failure kind. -/
theorem c3_counterexample :
    (add_application_to_db false
        { users := [sampleUser], apps := [sampleApp] }
        100 "123" "XX" "DP" 2023).1 = false ∧
    (add_application_to_db true
        { users := [sampleUser], apps := [sampleApp] }
        100 "123" "XX" "DP" 2023).1 = false ∧
    (add_user_to_db false
        { users := [sampleUser], apps := [sampleApp] } 100 "B").1
      = false ∧
    (add_user_to_db true
        { users := [sampleUser], apps := [sampleApp] } 100 "B").1
      = false := by
  refine ⟨?_, ?_, ?_, ?_⟩ <;> decide

/-- Claim C3 (amended): a duplicate user or application insert is
rejected, not overwritten — the store is unchanged and the call returns
`false` — but the caller-visible result is the same `false` that every
other store-internal write failure produces; the duplicate case is
distinguished only in the log, not in the returned value. -/
theorem c3_duplicate_rejected_not_distinct (s : DBState) (c : Int)
    (fn n suf ty : String) (yr : Int) (u : UserRow)
    (hu : s.users.find? (fun v => v.chat_id = c) = some u)
    (hdup : s.apps.any (fun b => b.user_id = u.user_id ∧
      b.application_number = n ∧ b.application_suffix = suf ∧
      b.application_type = ty ∧ b.application_year = yr) = true) :
    add_application_to_db false s c n suf ty yr = (false, s) ∧
    add_application_to_db true s c n suf ty yr = (false, s) ∧
    add_user_to_db false s c fn = (false, s) ∧
    add_user_to_db true s c fn = (false, s) := by
  have hany : s.users.any (fun v => v.chat_id = c) = true := by
    rcases List.find?_some hu, List.mem_of_find?_eq_some hu with ⟨h1, h2⟩
    exact List.any_eq_true.mpr ⟨u, h2, h1⟩
  refine ⟨?_, rfl, ?_, rfl⟩
  · simp only [add_application_to_db, if_neg, Bool.false_eq_true,
      not_false_eq_true, hu, hdup, if_true]
  · simp only [add_user_to_db, Bool.false_eq_true, not_false_eq_true,
      if_neg, hany, if_true]

/-- Witness for C3 (amended): with chat 100 and its stored application,
both duplicate inserts and both faulted inserts return `false` with the
store unchanged. -/
theorem c3_duplicate_rejected_not_distinct_witness :
    add_application_to_db false
        { users := [sampleUser], apps := [sampleApp] }
        100 "123" "XX" "DP" 2023
      = (false, { users := [sampleUser], apps := [sampleApp] }) ∧
    add_application_to_db true
        { users := [sampleUser], apps := [sampleApp] }
        100 "123" "XX" "DP" 2023
      = (false, { users := [sampleUser], apps := [sampleApp] }) ∧
    add_user_to_db false
        { users := [sampleUser], apps := [sampleApp] } 100 "B"
      = (false, { users := [sampleUser], apps := [sampleApp] }) ∧
    add_user_to_db true
        { users := [sampleUser], apps := [sampleApp] } 100 "B"
      = (false, { users := [sampleUser], apps := [sampleApp] }) :=
  c3_duplicate_rejected_not_distinct
    { users := [sampleUser], apps := [sampleApp] } 100 "B"
    "123" "XX" "DP" 2023 sampleUser (by decide) (by decide)

/-- Claim C4 fails on the code: on an empty store (no `Users` row for
chat 100), `add_application_to_db` reports success (`true`) — the
`INSERT ... SELECT` simply affects zero rows and raises nothing — so the
call does report success for a non-existent user (while indeed inserting
no application row). -/
theorem c4_counterexample :
    add_application_to_db false { users := [], apps := [] }
        100 "123" "XX" "DP" 2023
      = (true, { users := [], apps := [] }) := by
  decide

/-- Claim C4 (amended): `add_application_to_db` invoked with a `chat_id`
for which no `Users` row exists inserts no application row, but reports
success (`true`): the zero-row `INSERT ... SELECT` raises no error, so
the missing user is never surfaced to the caller. -/
theorem c4_missing_user_silent_success (s : DBState) (c : Int)
    (n suf ty : String) (yr : Int)
    (h : ∀ u ∈ s.users, u.chat_id ≠ c) :
    add_application_to_db false s c n suf ty yr = (true, s) := by
  have hfind : s.users.find? (fun v => v.chat_id = c) = none := by
    rw [List.find?_eq_none]
    intro u hu
    simp [h u hu]
  simp only [add_application_to_db, Bool.false_eq_true,
    not_false_eq_true, if_neg, hfind]

/-- Witness for C4 (amended): on the empty store, subscribing chat 100
to an application returns `true` and changes nothing. -/
theorem c4_missing_user_silent_success_witness :
    add_application_to_db false { users := [], apps := [] }
        100 "123" "XX" "DP" 2023
      = (true, { users := [], apps := [] }) :=
  c4_missing_user_silent_success { users := [], apps := [] }
    100 "123" "XX" "DP" 2023 (by simp)

/-- Claim C5 fails on the code: with one user owning two applications
that share number "123" but differ in `application_year` (2023 and
2024), `update_db_status` for number "123" rewrites the status of BOTH
rows, and `remove_from_db` deletes BOTH — the operations do not match on
the full five-component identity. -/
theorem c5_counterexample :
    ((update_db_status false
        { users := [sampleUser],
          apps := [sampleApp,
            { sampleApp with application_year := 2024 }] }
        100 "123" "Approved" false 50).2.apps.map
      (fun a => a.current_status)) = ["Approved", "Approved"] ∧
    (remove_from_db false
        { users := [sampleUser],
          apps := [sampleApp,
            { sampleApp with application_year := 2024 }] }
        100 "123").2.apps = [] := by
  refine ⟨?_, ?_⟩ <;> decide

/-- Claim C5 (amended): `update_db_status`, `remove_from_db` and
`get_application_status` identify their target rows by `(chat_id,
application_number)` alone — the suffix, type and year are not even
parameters of these functions — so they affect or return every
application of the user that shares the given number: the update
rewrites exactly the matching rows, the delete removes exactly the
matching rows, and the status read returns the first matching row's
status. -/
theorem c5_identity_is_two_components (s : DBState) (c : Int)
    (n st : String) (r : Bool) (t : Int) :
    List.Forall₂ (fun a b : AppRow =>
        (lookupUserId s c = some a.user_id ∧
            a.application_number = n →
          b = { a with current_status := st, is_resolved := r,
                       last_updated := some t }) ∧
        (¬(lookupUserId s c = some a.user_id ∧
            a.application_number = n) → b = a))
      s.apps (update_db_status false s c n st r t).2.apps ∧
    (∀ a : AppRow, a ∈ (remove_from_db false s c n).2.apps ↔
      a ∈ s.apps ∧ ¬(lookupUserId s c = some a.user_id ∧
        a.application_number = n)) ∧
    get_application_status false s c n =
      (s.apps.find? (fun a => lookupUserId s c = some a.user_id ∧
        a.application_number = n)).map (fun a => a.current_status) := by
  refine ⟨?_, ?_, rfl⟩
  · simp only [update_db_status, Bool.false_eq_true, not_false_eq_true,
      if_neg]
    rw [List.forall₂_map_right_iff]
    rw [List.forall₂_same]
    intro a _
    constructor
    · intro hmatch
      rw [if_pos (by exact_mod_cast hmatch)]
    · intro hmatch
      rw [if_neg (by simpa using hmatch)]
  · intro a
    simp only [remove_from_db, Bool.false_eq_true, not_false_eq_true,
      if_neg, List.mem_filter, decide_eq_true_eq]

/-- Claim C7: `update_timestamp` modifies only the `last_updated` column:
the `Users` table and every other column of every application row are
unchanged (in particular `current_status` and `is_resolved`), matching
rows get `last_updated = now`, and non-matching rows are wholly
untouched.  The function returns nothing, so no notification can be
produced by it. -/
theorem c7_timestamp_refresh_frame (fault : Bool) (s : DBState)
    (c t : Int) :
    ((update_timestamp fault s c t).users = s.users ∧
      List.Forall₂ (fun a b : AppRow =>
          b.user_id = a.user_id ∧ b.chat_id = a.chat_id ∧
          b.application_number = a.application_number ∧
          b.application_suffix = a.application_suffix ∧
          b.application_type = a.application_type ∧
          b.application_year = a.application_year ∧
          b.current_status = a.current_status ∧
          b.is_resolved = a.is_resolved ∧
          b.language = a.language)
        s.apps (update_timestamp fault s c t).apps) ∧
    List.Forall₂ (fun a b : AppRow =>
        (a.chat_id = c → b.last_updated = some t) ∧
        (a.chat_id ≠ c → b = a))
      s.apps (update_timestamp false s c t).apps := by
  refine ⟨⟨?_, ?_⟩, ?_⟩
  · cases fault <;> rfl
  · cases fault with
    | true =>
      simp only [update_timestamp, if_pos]
      exact List.forall₂_same.mpr (fun a _ => by
        exact ⟨rfl, rfl, rfl, rfl, rfl, rfl, rfl, rfl, rfl⟩)
    | false =>
      simp only [update_timestamp, Bool.false_eq_true, not_false_eq_true,
        if_neg]
      rw [List.forall₂_map_right_iff, List.forall₂_same]
      intro a _
      by_cases hc : a.chat_id = c
      · simp [hc]
      · simp [hc]
  · simp only [update_timestamp, Bool.false_eq_true, not_false_eq_true,
      if_neg]
    rw [List.forall₂_map_right_iff, List.forall₂_same]
    intro a _
    by_cases hc : a.chat_id = c
    · simp [hc]
    · simp [hc]

/-- Claim C10: `update_db_status` and `set_user_language` return `true`
whenever the underlying execute raises no exception — the row count is
never consulted — so with an identity matching no stored row they report
success and leave the entire store unchanged. -/
theorem c10_zero_row_write_reports_success (s : DBState) (c : Int)
    (n st lang : String) (r : Bool) (t : Int)
    (h1 : ∀ a ∈ s.apps, ¬(lookupUserId s c = some a.user_id ∧
      a.application_number = n))
    (h2 : ∀ a ∈ s.apps, a.chat_id ≠ c) :
    (∀ (s2 : DBState) (c2 : Int) (n2 st2 : String) (r2 : Bool)
        (t2 : Int),
      (update_db_status false s2 c2 n2 st2 r2 t2).1 = true) ∧
    (∀ (s2 : DBState) (c2 : Int) (l2 : String),
      (set_user_language false s2 c2 l2).1 = true) ∧
    update_db_status false s c n st r t = (true, s) ∧
    set_user_language false s c lang = (true, s) := by
  refine ⟨fun _ _ _ _ _ _ => rfl, fun _ _ _ => rfl, ?_, ?_⟩
  · simp only [update_db_status, Bool.false_eq_true, not_false_eq_true,
      if_neg, Prod.mk.injEq, true_and]
    have : s.apps.map (fun a =>
        if lookupUserId s c = some a.user_id ∧
           a.application_number = n then
          { a with current_status := st, last_updated := some t,
                   is_resolved := r }
        else a) = s.apps := by
      conv_rhs => rw [← List.map_id s.apps]
      exact List.map_congr_left (fun a ha => by rw [if_neg (h1 a ha)]; rfl)
    rw [this]
  · simp only [set_user_language, Bool.false_eq_true, not_false_eq_true,
      if_neg, Prod.mk.injEq, true_and]
    have : s.apps.map (fun a =>
        if a.chat_id = c then { a with language := lang } else a)
        = s.apps := by
      conv_rhs => rw [← List.map_id s.apps]
      exact List.map_congr_left (fun a ha => by rw [if_neg (h2 a ha)]; rfl)
    rw [this]

/-- Witness for C10: with chat 100 subscribed to application "123",
an update aimed at chat 999 (no such user) and number "777" (no such
application) returns `true` and leaves the store unchanged, as does a
language update for chat 999. -/
theorem c10_zero_row_write_reports_success_witness :
    update_db_status false { users := [sampleUser], apps := [sampleApp] }
        999 "777" "Approved" false 50
      = (true, { users := [sampleUser], apps := [sampleApp] }) ∧
    set_user_language false { users := [sampleUser], apps := [sampleApp] }
        999 "CZ"
      = (true, { users := [sampleUser], apps := [sampleApp] }) := by
  have h := c10_zero_row_write_reports_success
    { users := [sampleUser], apps := [sampleApp] } 999 "777" "Approved"
    "CZ" false 50 (by decide) (by decide)
  exact ⟨h.2.2.1, h.2.2.2⟩

/-- Helper: when every attempt from `a` through the cap fails, the retry
loop sleeps the doubling delays `d * 2 ^ i` and ends in the re-raise. -/
theorem connectGo_all_fail (fails : Nat → Bool) (m : Nat) :
    ∀ (nn a d : Nat), m - a = nn → a ≤ m →
      (∀ i, a ≤ i → i ≤ m → fails i = true) →
      connectGo fails m a d =
        (none, (List.range nn).map (fun i => d * 2 ^ i)) := by
  intro nn
  induction nn with
  | zero =>
    intro a d hn ham hall
    have ha : ¬ a < m := by omega
    rw [connectGo, hall a le_rfl ham]
    simp [ha]
  | succ k ih =>
    intro a d hn ham hall
    have ha : a < m := by omega
    rw [connectGo, hall a le_rfl ham]
    simp only [if_true, dif_pos ha]
    rw [ih (a + 1) (d * 2) (by omega) (by omega)
      (fun i h1 h2 => hall i (by omega) h2)]
    simp only [List.range_succ_eq_map, List.map_cons, List.map_map,
      pow_zero, mul_one]
    congr 1
    congr 1
    apply List.map_congr_left
    intro i _
    simp only [Function.comp_apply, pow_succ]
    ring

/-- Helper: when attempt `k` is the first success, the retry loop stops
there after sleeping the doubling delays for the failed attempts. -/
theorem connectGo_first_success (fails : Nat → Bool) (m k : Nat)
    (hk : fails k = false) (hkm : k ≤ m) :
    ∀ (nn a d : Nat), k - a = nn → a ≤ k →
      (∀ i, a ≤ i → i < k → fails i = true) →
      connectGo fails m a d =
        (some k, (List.range nn).map (fun i => d * 2 ^ i)) := by
  intro nn
  induction nn with
  | zero =>
    intro a d hn hak hall
    have ha : a = k := by omega
    subst ha
    rw [connectGo, hk]
    simp
  | succ j ih =>
    intro a d hn hak hall
    have ha : a < k := by omega
    have ham : a < m := by omega
    rw [connectGo, hall a le_rfl ha]
    simp only [if_true, dif_pos ham]
    rw [ih (a + 1) (d * 2) (by omega) (by omega)
      (fun i h1 h2 => hall i (by omega) h2)]
    simp only [List.range_succ_eq_map, List.map_cons, List.map_map,
      pow_zero, mul_one]
    congr 1
    congr 1
    apply List.map_congr_left
    intro i _
    simp only [Function.comp_apply, pow_succ]
    ring

/-- Claim C8: `connect` is the only operation that can fail fatally: it
retries up to the attempt cap with an exponentially doubling delay
(`d, 2d, 4d, ...` slept between attempts) and re-raises (`none`) only
after all `max_retries` attempts failed; when some attempt succeeds it
stops there having slept only the doubling prefix; while a per-request
store operation such as `update_db_status` turns any internal failure
into the safe return `false` with the store untouched, propagating no
exception. -/
theorem c8_connect_backoff_and_safe_writes :
    (∀ (fails : Nat → Bool) (m d : Nat), 1 ≤ m →
      (∀ i, 1 ≤ i → i ≤ m → fails i = true) →
      connect fails m d =
        (none, (List.range (m - 1)).map (fun i => d * 2 ^ i))) ∧
    (∀ (fails : Nat → Bool) (m d k : Nat), 1 ≤ k → k ≤ m →
      fails k = false → (∀ i, 1 ≤ i → i < k → fails i = true) →
      connect fails m d =
        (some k, (List.range (k - 1)).map (fun i => d * 2 ^ i))) ∧
    (∀ (s : DBState) (c : Int) (n st : String) (r : Bool) (t : Int),
      update_db_status true s c n st r t = (false, s)) := by
  refine ⟨?_, ?_, fun _ _ _ _ _ _ => rfl⟩
  · intro fails m d h1 hall
    exact connectGo_all_fail fails m (m - 1) 1 d (by omega) (by omega)
      hall
  · intro fails m d k hk1 hkm hk hall
    exact connectGo_first_success fails m k hk hkm (k - 1) 1 d
      (by omega) (by omega) hall

/-- Witness for C8: with every attempt failing, `connect` with cap 5 and
base delay 2 sleeps 2, 4, 8, 16 and then re-raises; with the third
attempt the first success it stops there having slept 2, 4; and a
faulted `update_db_status` returns `false` leaving the store unchanged. -/
theorem c8_connect_backoff_and_safe_writes_witness :
    connect (fun _ => true) 5 2 = (none, [2, 4, 8, 16]) ∧
    connect (fun i => decide (i < 3)) 5 2 = (some 3, [2, 4]) ∧
    update_db_status true { users := [sampleUser], apps := [sampleApp] }
        100 "123" "Approved" false 50
      = (false, { users := [sampleUser], apps := [sampleApp] }) := by
  refine ⟨?_, ?_, ?_⟩
  · have h := c8_connect_backoff_and_safe_writes.1 (fun _ => true) 5 2
      (by decide) (fun i _ _ => rfl)
    rw [h]
    decide
  · have h := c8_connect_backoff_and_safe_writes.2.1
      (fun i => decide (i < 3)) 5 2 3 (by decide) (by decide)
      (by decide) (fun i h1 h2 => by simp; omega)
    rw [h]
    decide
  · exact c8_connect_backoff_and_safe_writes.2.2
      { users := [sampleUser], apps := [sampleApp] } 100 "123"
      "Approved" false 50

/-- Helper: `optLe` is reflexive. -/
theorem optLe_refl (x : Option Int) : optLe x x = true := by
  cases x <;> simp [optLe]

/-- Helper: `optLe` is transitive. -/
theorem optLe_trans {x y z : Option Int} (h1 : optLe x y = true)
    (h2 : optLe y z = true) : optLe x z = true := by
  cases x <;> cases y <;> cases z <;> simp_all [optLe]
  omega

/-- Helper: an upper bound on `optLe` can be weakened. -/
theorem optLe_mono_right {x : Option Int} {t u : Int}
    (h : optLe x (some t) = true) (htu : t ≤ u) :
    optLe x (some u) = true := by
  cases x <;> simp_all [optLe]
  omega

/-- Helper: `lastUpdatedLe` on matching cons cells splits into the head
comparison and the tail comparison. -/
theorem lastUpdatedLe_cons {a b : AppRow} {xs ys : List AppRow} :
    lastUpdatedLe (a :: xs) (b :: ys) = true ↔
      optLe a.last_updated b.last_updated = true ∧
        lastUpdatedLe xs ys = true := by
  simp only [lastUpdatedLe, List.length_cons, List.zip_cons_cons,
    List.all_cons, Bool.and_eq_true, decide_eq_true_eq,
    Nat.add_right_cancel_iff]
  tauto

/-- Helper: `lastUpdatedLe` is reflexive. -/
theorem lastUpdatedLe_refl (xs : List AppRow) :
    lastUpdatedLe xs xs = true := by
  induction xs with
  | nil => rfl
  | cons a xs ih => exact lastUpdatedLe_cons.mpr ⟨optLe_refl _, ih⟩

/-- Helper: `lastUpdatedLe` is transitive. -/
theorem lastUpdatedLe_trans : ∀ {xs ys zs : List AppRow},
    lastUpdatedLe xs ys = true → lastUpdatedLe ys zs = true →
    lastUpdatedLe xs zs = true := by
  intro xs
  induction xs with
  | nil =>
    intro ys zs h1 h2
    have hy : ys = [] := by
      simp only [lastUpdatedLe, List.length_nil, Bool.and_eq_true,
        decide_eq_true_eq] at h1
      exact (List.length_eq_zero.mp h1.1.symm)
    subst hy
    have hz : zs = [] := by
      simp only [lastUpdatedLe, List.length_nil, Bool.and_eq_true,
        decide_eq_true_eq] at h2
      exact (List.length_eq_zero.mp h2.1.symm)
    subst hz
    rfl
  | cons a xs ih =>
    intro ys zs h1 h2
    cases ys with
    | nil =>
      simp only [lastUpdatedLe, List.length_cons, List.length_nil,
        Bool.and_eq_true, decide_eq_true_eq] at h1
      omega
    | cons b ys =>
      cases zs with
      | nil =>
        simp only [lastUpdatedLe, List.length_cons, List.length_nil,
          Bool.and_eq_true, decide_eq_true_eq] at h2
        omega
      | cons c zs =>
        rcases lastUpdatedLe_cons.mp h1 with ⟨hab, hxy⟩
        rcases lastUpdatedLe_cons.mp h2 with ⟨hbc, hyz⟩
        exact lastUpdatedLe_cons.mpr
          ⟨optLe_trans hab hbc, ih hxy hyz⟩

/-- Helper: a row list only moves forward under a map whose image never
decreases `last_updated`. -/
theorem lastUpdatedLe_map (xs : List AppRow) (g : AppRow → AppRow)
    (h : ∀ a ∈ xs, optLe a.last_updated (g a).last_updated = true) :
    lastUpdatedLe xs (xs.map g) = true := by
  induction xs with
  | nil => rfl
  | cons a xs ih =>
    rw [List.map_cons]
    exact lastUpdatedLe_cons.mpr
      ⟨h a (List.mem_cons_self a xs),
       ih (fun b hb => h b (List.mem_cons_of_mem a hb))⟩

/-- Helper: one dispatcher operation at time `t` never moves any row's
`last_updated` backwards, provided no stored stamp lies in `t`'s
future. -/
theorem applyOp_mono (s : DBState) (op : DbOp) (t : Int)
    (h : stampedBefore s.apps t = true) :
    lastUpdatedLe s.apps (applyOp s op t).apps = true := by
  have hb : ∀ a ∈ s.apps, optLe a.last_updated (some t) = true := by
    simpa [stampedBefore, List.all_eq_true] using h
  cases op with
  | updStatus c n st r =>
    simp only [applyOp, update_db_status, Bool.false_eq_true,
      not_false_eq_true, if_neg]
    apply lastUpdatedLe_map
    intro a ha
    by_cases hc : lookupUserId s c = some a.user_id ∧
        a.application_number = n
    · rw [if_pos hc]
      exact hb a ha
    · rw [if_neg hc]
      exact optLe_refl _
  | updTimestamp c =>
    simp only [applyOp, update_timestamp, Bool.false_eq_true,
      not_false_eq_true, if_neg]
    apply lastUpdatedLe_map
    intro a ha
    by_cases hc : a.chat_id = c
    · rw [if_pos hc]
      exact hb a ha
    · rw [if_neg hc]
      exact optLe_refl _

/-- Helper: one dispatcher operation at time `t` keeps every row's
stamp at or below any `u ≥ t`. -/
theorem applyOp_stamped (s : DBState) (op : DbOp) (t u : Int)
    (h : stampedBefore s.apps t = true) (htu : t ≤ u) :
    stampedBefore (applyOp s op t).apps u = true := by
  have hb : ∀ a ∈ s.apps, optLe a.last_updated (some t) = true := by
    simpa [stampedBefore, List.all_eq_true] using h
  simp only [stampedBefore, List.all_eq_true]
  intro b hbmem
  cases op with
  | updStatus c n st r =>
    simp only [applyOp, update_db_status, Bool.false_eq_true,
      not_false_eq_true, if_neg, List.mem_map] at hbmem
    rcases hbmem with ⟨a, ha, rfl⟩
    by_cases hc : lookupUserId s c = some a.user_id ∧
        a.application_number = n
    · rw [if_pos hc]
      simp [optLe, htu]
    · rw [if_neg hc]
      exact optLe_mono_right (hb a ha) htu
  | updTimestamp c =>
    simp only [applyOp, update_timestamp, Bool.false_eq_true,
      not_false_eq_true, if_neg, List.mem_map] at hbmem
    rcases hbmem with ⟨a, ha, rfl⟩
    by_cases hc : a.chat_id = c
    · rw [if_pos hc]
      simp [optLe, htu]
    · rw [if_neg hc]
      exact optLe_mono_right (hb a ha) htu

/-- Helper: replacing the application rows does not change the user
subquery. -/
theorem lookupUserId_with_apps (s : DBState) (xs : List AppRow)
    (c : Int) : lookupUserId { s with apps := xs } c = lookupUserId s c :=
  rfl

/-- Claim C6: re-executing a completed status update is idempotent —
a second `update_db_status` with the same status and resolved values
leaves every row's `current_status` and `is_resolved` as after the
first — and across any time-ordered sequence of `update_db_status` /
`update_timestamp` operations (each issued at a wall-clock time not
before the stamps already stored) every application's `last_updated` is
monotonically non-decreasing. -/
theorem c6_idempotent_and_monotone :
    (∀ (s : DBState) (c : Int) (n st : String) (r : Bool) (t1 t2 : Int),
      ((update_db_status false
            (update_db_status false s c n st r t1).2
            c n st r t2).2.apps.map
          (fun a => (a.current_status, a.is_resolved))) =
        ((update_db_status false s c n st r t1).2.apps.map
          (fun a => (a.current_status, a.is_resolved)))) ∧
    (∀ (l : List (DbOp × Int)) (s : DBState),
      List.Pairwise (fun p q => p.2 ≤ q.2) l →
      (∀ p ∈ l, stampedBefore s.apps p.2 = true) →
      lastUpdatedLe s.apps (runOps s l).apps = true) := by
  constructor
  · intro s c n st r t1 t2
    simp only [update_db_status, Bool.false_eq_true, not_false_eq_true,
      if_neg, lookupUserId_with_apps, List.map_map]
    apply List.map_congr_left
    intro a _
    by_cases hc : lookupUserId s c = some a.user_id ∧
        a.application_number = n
    · simp only [Function.comp_apply, if_pos hc]
    · simp only [Function.comp_apply, if_neg hc]
  · intro l
    induction l with
    | nil =>
      intro s _ _
      exact lastUpdatedLe_refl _
    | cons p rest ih =>
      intro s hpw hinit
      have hhead := hinit p (List.mem_cons_self p rest)
      have hpc := List.pairwise_cons.mp hpw
      have hstep := applyOp_mono s p.1 p.2 hhead
      have hrest : ∀ q ∈ rest,
          stampedBefore (applyOp s p.1 p.2).apps q.2 = true := by
        intro q hq
        exact applyOp_stamped s p.1 p.2 q.2 hhead (hpc.1 q hq)
      have htail := ih (applyOp s p.1 p.2) hpc.2 hrest
      simp only [runOps, List.foldl_cons] at htail ⊢
      exact lastUpdatedLe_trans hstep htail

/-- Witness for C6: a concrete double status update leaves statuses as
after the first, and a concrete time-ordered status-update /
timestamp-refresh sequence only advances the stored stamp. -/
theorem c6_idempotent_and_monotone_witness :
    ((update_db_status false
          (update_db_status false
            { users := [sampleUser], apps := [sampleApp] }
            100 "123" "Approved" false 10).2
          100 "123" "Approved" false 20).2.apps.map
        (fun a => (a.current_status, a.is_resolved))) =
      ((update_db_status false
          { users := [sampleUser], apps := [sampleApp] }
          100 "123" "Approved" false 10).2.apps.map
        (fun a => (a.current_status, a.is_resolved))) ∧
    lastUpdatedLe [sampleApp]
      (runOps { users := [sampleUser], apps := [sampleApp] }
        [(DbOp.updStatus 100 "123" "Approved" false, 10),
         (DbOp.updTimestamp 100, 20)]).apps = true := by
  constructor
  · exact c6_idempotent_and_monotone.1
      { users := [sampleUser], apps := [sampleApp] }
      100 "123" "Approved" false 10 20
  · exact c6_idempotent_and_monotone.2
      [(DbOp.updStatus 100 "123" "Approved" false, 10),
       (DbOp.updTimestamp 100, 20)]
      { users := [sampleUser], apps := [sampleApp] }
      (by decide) (by decide)

/-- Helper: `dig` always renders a decimal digit character. -/
theorem isDigit_dig (n : Nat) : (dig n).isDigit = true := by
  have h : n % 10 < 10 := Nat.mod_lt _ (by norm_num)
  unfold dig
  generalize n % 10 = m at h ⊢
  interval_cases m <;> decide

/-- Helper: the rendered timestamp always has the exact shape
`HH:MM:SS DD-MM-YYYY`. -/
theorem matchesHMSDMY_formatTimestamp (u : Int) :
    matchesHMSDMY (formatTimestamp u) = true := by
  unfold matchesHMSDMY formatTimestamp pad2 pad4
  simp only [String.toList, String.data_append]
  simp only [List.cons_append, List.nil_append]
  simp [List.getD_cons_succ, List.getD_cons_zero, isDigit_dig]

/-- Claim C9: for an application found with a non-null `last_updated`,
`get_application_status_timestamp` returns the localization entry
`current_status_timestamp` for the user's language applied to exactly
the status and the timestamp, where the timestamp is the stored UTC
instant converted through the fixed zone name `"Europe/Prague"` and
rendered in the exact shape `HH:MM:SS DD-MM-YYYY`. -/
theorem c9_status_timestamp_rendering
    (textLookup : String → String → List String → String)
    (astz : String → Int → Int) (s : DBState) (c : Int)
    (n lang : String) (a : AppRow) (t : Int)
    (hfind : s.apps.find? (fun b => lookupUserId s c = some b.user_id ∧
      b.application_number = n) = some a)
    (hlu : a.last_updated = some t) :
    get_application_status_timestamp textLookup astz false s c n lang =
      textLookup lang "current_status_timestamp"
        [a.current_status, formatTimestamp (astz "Europe/Prague" t)] ∧
    matchesHMSDMY (formatTimestamp (astz "Europe/Prague" t)) = true := by
  refine ⟨?_, matchesHMSDMY_formatTimestamp _⟩
  simp only [get_application_status_timestamp, Bool.false_eq_true,
    not_false_eq_true, if_neg, hfind, hlu]

/-- Witness for C9: with the status "Pending" checked at UTC epoch
1700000000 (2023-11-14 22:13:20 UTC) and the timezone conversion taken
as the identity, the rendered text is the `current_status_timestamp`
lookup applied to "Pending" and "22:13:20 14-11-2023". -/
theorem c9_status_timestamp_rendering_witness :
    get_application_status_timestamp
        (fun lg ky args => String.intercalate "|" (lg :: ky :: args))
        (fun _ t => t) false
        { users := [sampleUser], apps := [pendingApp] }
        100 "123" "EN"
      = String.intercalate "|"
          ["EN", "current_status_timestamp", "Pending",
           formatTimestamp 1700000000] ∧
    matchesHMSDMY (formatTimestamp 1700000000) = true :=
  c9_status_timestamp_rendering
    (fun lg ky args => String.intercalate "|" (lg :: ky :: args))
    (fun _ t => t)
    { users := [sampleUser], apps := [pendingApp] }
    100 "123" "EN" pendingApp 1700000000 (by decide) rfl
